import Mathlib

/-!
Verification development for the DESH episode-splitting detection core.

The Python source consists of two detection paths:
  * chaptermode.py - duration tolerance clustering plus the episode-start
    resolution policy (build_repeating_groups, pick_group_by_episode_count,
    analyze_chapter_lengths);
  * autosplit.py - the audio-fingerprint pipeline (analyze_chapters,
    find_similar_samples, find_intro_sequences).

Modelling conventions:
  * Python floats are modelled by rationals wherever the source only adds,
    subtracts, compares and divides them; values produced by square roots
    (cosine distances, RMS energy) are modelled in the real numbers.
  * Python dicts (which iterate in insertion order) are modelled by
    association lists with insert-or-overwrite updates.
  * Python sets are modelled by lists with membership tests; the two uses
    (the `used` set of the duration sweep, the `best_chapters` set of the
    intro clusterer) only ever add fresh elements or are sorted afterwards,
    so the iteration-order indeterminacy of a Python set is immaterial.
  * Python sorted / list.sort is a stable ascending sort by key; it is
    modelled by List.insertionSort with the corresponding (total,
    reflexive) key relation, which is also stable.
  * The single interactive prompt of pick_group_by_episode_count is
    modelled by an explicit decision function `choose` that receives the
    displayed group list and returns the user's one accepted action:
    `none` for quitting, `some i` for the (0-based) selected index.  The
    Python loop re-prompts until the input is valid, so the accepted
    action is always valid; an out-of-range index is mapped to the quit
    outcome to keep the model total.
-/

namespace DESH

/-- Chapter record as produced by `extract_chapters` in chaptermode.py:
number (1-based), label, start time in seconds, and duration (seconds,
or `none` for the final chapter).  autosplit.py uses the same record
without the duration field; the field is simply unused there. -/
structure Chapter where
  number : Nat
  label : String
  start_time : ℚ
  duration : Option ℚ
  deriving Repr, DecidableEq

/-- Sample record as produced by `analyze_chapters` in autosplit.py. -/
structure Sample where
  chapter_number : Nat
  chapter_label : String
  start_time : ℚ
  fingerprint : List ℚ
  deriving Repr, DecidableEq

/-- Match record as produced by `find_similar_samples` in autosplit.py.
The similarity percentage is a float in the source; it is a real number
when produced by the similarity engine and the two consumers
(`find_intro_sequences` and display) only order and average it, so the
record is polymorphic over the ordered field used for similarities. -/
structure Match (α : Type) where
  sample1 : Sample
  sample2 : Sample
  similarity : α
  deriving Repr, DecidableEq

/-- Python's int() on a rational value: truncation toward zero. -/
def pyInt (q : ℚ) : ℤ :=
  if q < 0 then q.ceil else q.floor

/-- Python's round() to an integer: round half to even (banker's
rounding), as used for the group key in `build_repeating_groups`. -/
def pyRound (q : ℚ) : ℤ :=
  if q - q.floor < 1/2 then q.floor
  else if 1/2 < q - q.floor then q.floor + 1
  else if q.floor % 2 = 0 then q.floor else q.floor + 1

/-- ', '.join(map(str, l)) -/
def joinNats (l : List Nat) : String :=
  String.intercalate ", " (l.map toString)

/-- Python's abs on a rational value (definitionally unfoldable form of
the lattice-theoretic absolute value). -/
def ratAbs (q : ℚ) : ℚ := if q < 0 then -q else q

/-- Python's abs on an integer value. -/
def intAbs (x : ℤ) : ℤ := if x < 0 then -x else x

/-! ## chaptermode.py : duration tolerance clustering -/

/-- Ordering used to sort the usable chapters by duration
(`sorted(usable, key=lambda x: x['duration'])`); the sort itself only
needs the (number, duration) projection of each chapter. -/
def durLE (a b : Nat × ℚ) : Prop := a.2 ≤ b.2

instance : DecidableRel durLE := fun a b => inferInstanceAs (Decidable (a.2 ≤ b.2))

instance : IsTotal (Nat × ℚ) durLE := ⟨fun a b => le_total a.2 b.2⟩

instance : IsTrans (Nat × ℚ) durLE := ⟨fun _ _ _ h h' => le_trans h h'⟩

/-- Insert-or-overwrite on an association list, the semantics of
`groups[group_key] = sorted(current_group)` on a Python dict: an existing
key keeps its position and gets the new value, a new key is appended. -/
def dictInsert (groups : List (ℤ × List Nat)) (k : ℤ) (v : List Nat) :
    List (ℤ × List Nat) :=
  if groups.any (fun p => p.1 == k) then
    groups.map (fun p => if p.1 == k then (k, v) else p)
  else groups ++ [(k, v)]

/-- The inner j-loop of `build_repeating_groups`: scan the chapters after
the seed, and append every not-yet-used chapter whose duration is within
`tolerance` of the seed's duration to the current group (and to the used
set).  Returns the grown group and the grown used set. -/
def collectGroup (seed_dur tolerance : ℚ) :
    List (Nat × ℚ) → List Nat → List Nat → List Nat × List Nat
  | [], used, acc => (acc, used)
  | (n, d) :: rest, used, acc =>
    if n ∈ used then collectGroup seed_dur tolerance rest used acc
    else if ratAbs (d - seed_dur) ≤ tolerance then
      collectGroup seed_dur tolerance rest (n :: used) (acc ++ [n])
    else collectGroup seed_dur tolerance rest used acc

/-- The outer i-loop of `build_repeating_groups`: each not-yet-used
chapter seeds a group keyed by its rounded duration; groups of size at
least 2 are stored (insert-or-overwrite, as on the Python dict). -/
def sweepGroups (tolerance : ℚ) :
    List (Nat × ℚ) → List Nat → List (ℤ × List Nat) → List (ℤ × List Nat)
  | [], _, groups => groups
  | (n, d) :: rest, used, groups =>
    if n ∈ used then sweepGroups tolerance rest used groups
    else
      let res := collectGroup d tolerance rest (n :: used) [n]
      if 2 ≤ res.1.length then
        sweepGroups tolerance rest res.2
          (dictInsert groups (pyRound d) (List.insertionSort (· ≤ ·) res.1))
      else sweepGroups tolerance rest res.2 groups

/-- The (number, duration) pairs of the chapters with a defined duration:
`usable = [c for c in chapters if c['duration'] is not None]`, projected
to the two fields the grouping reads. -/
def usablePairs (chapters : List Chapter) : List (Nat × ℚ) :=
  chapters.filterMap (fun c => c.duration.map (fun d => (c.number, d)))

/-- chaptermode.build_repeating_groups: group chapters of near-equal
duration (single linkage against each group's seed), keeping groups of
size at least 2, keyed by the seed's rounded duration. -/
def build_repeating_groups (chapters : List Chapter) (tolerance : ℚ) :
    List (ℤ × List Nat) :=
  let usable := usablePairs chapters
  if usable = [] then []
  else sweepGroups tolerance (List.insertionSort durLE usable) [] []

/-! ## chaptermode.py : episode-start resolution policy -/

/-- The per-group record computed at the top of
`pick_group_by_episode_count`. -/
structure GroupInfo where
  chapters : List Nat
  splits : Nat
  episodes_outro : Nat
  episodes_intro : Nat
  deriving Repr, DecidableEq

def mkGroupInfo (chaps : List Nat) : GroupInfo :=
  { chapters := chaps
    splits := chaps.length
    episodes_outro := chaps.length
    episodes_intro := chaps.length + 1 }

def groupInfoList (groups : List (ℤ × List Nat)) : List (ℤ × GroupInfo) :=
  groups.map (fun p => (p.1, mkGroupInfo p.2))

/-- Outro-style episode starts:
`[ch + 1 for ch in info['chapters'] if ch + 1 <= total_chapters]`. -/
def outroStarts (chaps : List Nat) (total_chapters : Nat) : List Nat :=
  (chaps.filter (fun ch => ch + 1 ≤ total_chapters)).map (fun ch => ch + 1)

/-- The candidate a single group contributes to `best_candidates`:
outro-style if its outro episode count matches, else intro-style if its
intro episode count matches, else nothing. -/
def bestCandidate (expected_episodes total_chapters : Nat) (p : ℤ × GroupInfo) :
    Option (List Nat × String) :=
  if p.2.episodes_outro = expected_episodes then
    some (outroStarts p.2.chapters total_chapters,
      "Outro-style match (N splits = N episodes) for duration " ++ toString p.1 ++ "s")
  else if p.2.episodes_intro = expected_episodes then
    some (p.2.chapters,
      "Intro-style match (N splits = N-1 episodes) for duration " ++ toString p.1 ++ "s")
  else none

/-- abs(episodes_outro - E) as in the prompt ranking. -/
def outroDiff (expected_episodes : Nat) (v : GroupInfo) : ℤ :=
  intAbs ((v.episodes_outro : ℤ) - (expected_episodes : ℤ))

/-- abs(episodes_intro - E) as in the prompt ranking. -/
def introDiff (expected_episodes : Nat) (v : GroupInfo) : ℤ :=
  intAbs ((v.episodes_intro : ℤ) - (expected_episodes : ℤ))

/-- Lexicographic order on the 4-component Python sort key (two booleans,
False < True, then two integers). -/
def tuple4LE (x y : Bool × Bool × ℤ × ℤ) : Prop :=
  x.1 < y.1 ∨ (x.1 = y.1 ∧ (x.2.1 < y.2.1 ∨ (x.2.1 = y.2.1 ∧
    (x.2.2.1 < y.2.2.1 ∨ (x.2.2.1 = y.2.2.1 ∧ x.2.2.2 ≤ y.2.2.2)))))

instance (x y : Bool × Bool × ℤ × ℤ) : Decidable (tuple4LE x y) :=
  inferInstanceAs (Decidable (_ ∨ _))

/-- The sort key of the interactive prompt's ranking:
(not exact-outro-match, not exact-intro-match, min distance of either
interpretation to E, outro distance minus intro distance). -/
def promptKey (expected_episodes : Nat) (p : ℤ × GroupInfo) : Bool × Bool × ℤ × ℤ :=
  (!(p.2.episodes_outro == expected_episodes),
   !(p.2.episodes_intro == expected_episodes),
   min (outroDiff expected_episodes p.2) (introDiff expected_episodes p.2),
   outroDiff expected_episodes p.2 - introDiff expected_episodes p.2)

def promptLE (expected_episodes : Nat) (a b : ℤ × GroupInfo) : Prop :=
  tuple4LE (promptKey expected_episodes a) (promptKey expected_episodes b)

instance (E : Nat) : DecidableRel (promptLE E) :=
  fun a b => inferInstanceAs (Decidable (tuple4LE (promptKey E a) (promptKey E b)))

/-- The interactive fallback branch of `pick_group_by_episode_count`:
filter to groups whose episode counts are plausibly close to the
expected count (falling back to all groups), rank them, and resolve the
user's one accepted action (quit, or a selected group interpreted
outro-style). -/
def promptSelect (group_info : List (ℤ × GroupInfo))
    (expected_episodes total_chapters : Nat)
    (choose : List (ℤ × GroupInfo) → Option Nat) : List Nat × String :=
  let close_groups := group_info.filter (fun p =>
    p.2.episodes_outro == expected_episodes ||
    p.2.episodes_intro == expected_episodes ||
    decide (outroDiff expected_episodes p.2 ≤ 1) ||
    decide (introDiff expected_episodes p.2 ≤ 1))
  let pool := if close_groups = [] then group_info else close_groups
  let group_list := List.insertionSort (promptLE expected_episodes) pool
  match choose group_list with
  | none => ([], "User quit selection.")
  | some i =>
    match group_list[i]? with
    | some (dur, info) =>
      (outroStarts info.chapters total_chapters,
        "User selected group with duration " ++ toString dur ++ "s (chapters " ++
          joinNats info.chapters ++ "). Assuming outro-style (end of ep -> start of next).")
    | none => ([], "User quit selection.")

/-- chaptermode.pick_group_by_episode_count: auto-select when exactly one
group's outro- or intro-style episode count equals the expected count
(outro-style preferred per group), otherwise fall through to the
interactive prompt. -/
def pick_group_by_episode_count (groups : List (ℤ × List Nat))
    (expected_episodes total_chapters : Nat)
    (choose : List (ℤ × GroupInfo) → Option Nat) : List Nat × String :=
  if groups = [] then ([], "No repeating groups found.")
  else
    let group_info := groupInfoList groups
    let best_candidates := group_info.filterMap (bestCandidate expected_episodes total_chapters)
    if best_candidates.length = 1 then best_candidates.headI
    else promptSelect group_info expected_episodes total_chapters choose

/-- `max(c['number'] for c in chapters) if chapters else 0`; chapter
numbers are naturals, so folding max from 0 agrees with Python's max on
every nonempty list. -/
def maxChapterNumber (chapters : List Chapter) : Nat :=
  chapters.foldl (fun m c => max m c.number) 0

/-- The post-processing filter of `analyze_chapter_lengths`:
deduplicate (the subsequent ascending sort makes the iteration order of
the Python set immaterial), drop starts beyond the last chapter, drop a
start equal to the last chapter, sort ascending. -/
def filteredStarts (episode_starts : List Nat) (max_ch : Nat) : List Nat :=
  List.insertionSort (· ≤ ·)
    (((episode_starts.dedup).filter (fun c => decide (c ≤ max_ch))).filter
      (fun c => decide (c ≠ max_ch)))

/-- chaptermode.analyze_chapter_lengths: tolerance-group the chapters
(tolerance 2.0), resolve a group against the expected episode count, and
post-process the start list (dedup + sort + boundary filters, the
missing-first-episode heuristic, truncation to the expected count). -/
def analyze_chapter_lengths (chapters : List Chapter) (expected_episodes : Nat)
    (choose : List (ℤ × GroupInfo) → Option Nat) : List Nat × String :=
  let groups := build_repeating_groups chapters 2
  let pr := pick_group_by_episode_count groups expected_episodes chapters.length choose
  let max_ch := maxChapterNumber chapters
  let final_starts := filteredStarts pr.1 max_ch
  -- `if final_starts and final_starts[0] > 2: if len(final_starts) ==
  -- expected_episodes - 1:` — headI is 0 on the empty list, so the
  -- single flattened condition agrees with Python's truthiness test.
  let withFirst :=
    if 2 < final_starts.headI ∧ final_starts.length = expected_episodes - 1 then
      (1 :: final_starts, pr.2 ++ " Inferred missing first episode start at chapter 1.")
    else (final_starts, pr.2)
  if expected_episodes < withFirst.1.length then
    (withFirst.1.take expected_episodes,
      withFirst.2 ++ " (Note: Truncated to match expected episode count.)")
  else withFirst

/-! ## autosplit.py : fingerprint extraction -/

/-- Sum of products of two coordinate lists (the dot product used by the
cosine distance; missing coordinates of the shorter list contribute 0,
matching equal-length NumPy vectors on the source's actual inputs). -/
def dotList (x y : List ℚ) : ℚ :=
  (List.zipWith (fun a b => a * b) x y).sum

/-- scipy's cosine distance between two fingerprints:
1 - x.y / (|x| |y|).  Square roots force the value into the reals. -/
noncomputable def cosineDist (x y : List ℚ) : ℝ :=
  1 - ((dotList x y : ℚ) : ℝ) /
    (Real.sqrt ((dotList x x : ℚ) : ℝ) * Real.sqrt ((dotList y y : ℚ) : ℝ))

/-- np.sqrt(np.mean(segment**2)): the RMS energy of a segment. -/
noncomputable def rmsOf (segment : List ℚ) : ℝ :=
  Real.sqrt ((((segment.map (fun v => v * v)).sum : ℚ) : ℝ) / (segment.length : ℝ))

/-- y[start_sample : start_sample + segment_samples] for the 10-second
segment of a chapter (start times are non-negative on the data model's
domain, so truncation to a natural index agrees with Python slicing). -/
def chapterSegment (y : List ℚ) (sr : Nat) (ch : Chapter) : List ℚ :=
  (y.drop (pyInt (ch.start_time * (sr : ℚ))).toNat).take (sr * 10)

/-- The body of the per-chapter loop of autosplit.analyze_chapters:
skip the chapter (no Sample) when its 10-second segment extends beyond
the audio or is below the 0.005 RMS silence floor, otherwise emit a
Sample carrying the fingerprint of the segment.  The MFCC fingerprint
computation is delegated to librosa in the source (an external
collaborator), so it enters the model as the function parameter
`create_fingerprint`. -/
noncomputable def analyzeChapter (create_fingerprint : List ℚ → List ℚ)
    (y : List ℚ) (sr : Nat) (ch : Chapter) : Option Sample :=
  let segment_samples : ℤ := (sr : ℤ) * 10
  let start_sample : ℤ := pyInt (ch.start_time * (sr : ℚ))
  if (y.length : ℤ) < start_sample + segment_samples then none
  else
    let segment := chapterSegment y sr ch
    if rmsOf segment < 0.005 then none
    else some ⟨ch.number, ch.label, ch.start_time, create_fingerprint segment⟩

/-- autosplit.analyze_chapters: fingerprint the first 10 seconds of every
chapter, silently skipping unusable chapters. -/
noncomputable def analyze_chapters (create_fingerprint : List ℚ → List ℚ)
    (y : List ℚ) (chapters : List Chapter) (sr : Nat) : List Sample :=
  chapters.filterMap (analyzeChapter create_fingerprint y sr)

/-! ## autosplit.py : pairwise similarity engine -/

/-- All ordered pairs (i, j) with i < j, in the nested-loop order of
find_similar_samples. -/
def allPairs {α : Type} : List α → List (α × α)
  | [] => []
  | x :: xs => (xs.map (fun y => (x, y))) ++ allPairs xs

/-- autosplit.find_similar_samples: report every unordered pair of
samples whose cosine distance is strictly below the threshold, with
similarity percentage (1 - distance) * 100. -/
noncomputable def find_similar_samples (samples : List Sample)
    (similarity_threshold : ℝ) : List (Match ℝ) :=
  if samples.length < 2 then []
  else
    (allPairs samples).filterMap (fun p =>
      if cosineDist p.1.fingerprint p.2.fingerprint < similarity_threshold then
        some ⟨p.1, p.2, (1 - cosineDist p.1.fingerprint p.2.fingerprint) * 100⟩
      else none)

/-! ## autosplit.py : intro-sequence clusterer

The clusterer only reads chapter numbers and similarity values from the
matches; Python is dynamically typed, so the functions are stated over an
arbitrary linearly ordered field of similarity values (`ℝ` when fed by
the similarity engine, and any countable instance for concrete tests). -/

/-- chapter_match_counts[ch] = chapter_match_counts.get(ch, 0) + 1 on an
insertion-ordered dict. -/
def bumpCount (m : List (Nat × Nat)) (ch : Nat) : List (Nat × Nat) :=
  if m.any (fun p => p.1 == ch) then
    m.map (fun p => if p.1 == ch then (p.1, p.2 + 1) else p)
  else m ++ [(ch, 1)]

/-- chapter_similarities[ch].append(s) on an insertion-ordered dict. -/
def pushSim {α : Type} (m : List (Nat × List α)) (ch : Nat) (s : α) :
    List (Nat × List α) :=
  if m.any (fun p => p.1 == ch) then
    m.map (fun p => if p.1 == ch then (p.1, p.2 ++ [s]) else p)
  else m ++ [(ch, [s])]

/-- The first loop of find_intro_sequences: per-chapter high-quality
match counts and similarity lists (both endpoints of every match). -/
def tallyMatches {α : Type} (high_quality_matches : List (Match α)) :
    List (Nat × Nat) × List (Nat × List α) :=
  high_quality_matches.foldl
    (fun acc m =>
      (bumpCount (bumpCount acc.1 m.sample1.chapter_number) m.sample2.chapter_number,
       pushSim (pushSim acc.2 m.sample1.chapter_number m.similarity)
         m.sample2.chapter_number m.similarity))
    ([], [])

def lookupSims {α : Type} (m : List (Nat × List α)) (ch : Nat) : List α :=
  ((m.find? (fun p => p.1 == ch)).map (fun p => p.2)).getD []

/-- The candidate chapters with their match count and average
similarity: every chapter with at least min_group_size - 1 high-quality
matches, in dict insertion order. -/
def candidatesOf {α : Type} [LinearOrderedField α]
    (high_quality_matches : List (Match α)) (min_group_size : Nat) :
    List (Nat × Nat × α) :=
  let t := tallyMatches high_quality_matches
  t.1.filterMap (fun p =>
    if min_group_size - 1 ≤ p.2 then
      some (p.1, p.2, (lookupSims t.2 p.1).sum / ((lookupSims t.2 p.1).length : α))
    else none)

/-- The ranking of candidates: stable descending sort by
(match count, average similarity), i.e. Python's
sort(key=lambda x: (x[1], x[2]), reverse=True). -/
def candLE {α : Type} [LinearOrderedField α] (a b : Nat × Nat × α) : Prop :=
  b.2.1 < a.2.1 ∨ (b.2.1 = a.2.1 ∧ b.2.2 ≤ a.2.2)

instance {α : Type} [LinearOrderedField α] : DecidableRel (@candLE α _) :=
  fun a b => inferInstanceAs (Decidable (b.2.1 < a.2.1 ∨ (b.2.1 = a.2.1 ∧ b.2.2 ≤ a.2.2)))

/-- matches_with_candidates: the number of high-quality matches that
touch the given chapter and whose other endpoint is a candidate. -/
def matchesWithCandidates {α : Type} (high_quality_matches : List (Match α))
    (candidate_chapters : List (Nat × Nat × α)) (chapter : Nat) : Nat :=
  high_quality_matches.countP (fun m =>
    (m.sample1.chapter_number == chapter &&
      candidate_chapters.any (fun c => m.sample2.chapter_number == c.1)) ||
    (m.sample2.chapter_number == chapter &&
      candidate_chapters.any (fun c => m.sample1.chapter_number == c.1)))

/-- autosplit.find_intro_sequences: keep matches at or above the
similarity floor, find candidate chapters (enough connections to anchor
a group), rank them, confirm each candidate against the candidate set,
and return the confirmed set sorted ascending when it is large enough. -/
def find_intro_sequences {α : Type} [LinearOrderedField α]
    (match_list : List (Match α)) (min_group_size : Nat)
    (similarity_threshold : α) : List (List Nat) :=
  if match_list = [] then []
  else
    let high_quality_matches :=
      match_list.filter (fun m => decide (similarity_threshold ≤ m.similarity))
    if high_quality_matches = [] then []
    else
      let candidate_chapters :=
        List.insertionSort candLE (candidatesOf high_quality_matches min_group_size)
      if candidate_chapters = [] then []
      else
        let best_chapters :=
          (candidate_chapters.filter (fun c =>
            decide (min_group_size - 1 ≤
              matchesWithCandidates high_quality_matches candidate_chapters c.1))).map
            (fun c => c.1)
        if min_group_size ≤ best_chapters.length then
          [List.insertionSort (· ≤ ·) best_chapters]
        else []

/-- The intro-sequence clusterer with the candidate ranking step
omitted: the spec observes that the descending sort of candidates by
(match count, mean similarity) cannot influence the returned group,
because the confirmation of a chapter consults only the candidate set
and the high-quality match list.  This variant makes that reading of the
algorithm precise so it can be compared with `find_intro_sequences`. -/
def find_intro_sequences_unranked {α : Type} [LinearOrderedField α]
    (match_list : List (Match α)) (min_group_size : Nat)
    (similarity_threshold : α) : List (List Nat) :=
  if match_list = [] then []
  else
    let high_quality_matches :=
      match_list.filter (fun m => decide (similarity_threshold ≤ m.similarity))
    if high_quality_matches = [] then []
    else
      let candidate_chapters := candidatesOf high_quality_matches min_group_size
      if candidate_chapters = [] then []
      else
        let best_chapters :=
          (candidate_chapters.filter (fun c =>
            decide (min_group_size - 1 ≤
              matchesWithCandidates high_quality_matches candidate_chapters c.1))).map
            (fun c => c.1)
        if min_group_size ≤ best_chapters.length then
          [List.insertionSort (· ≤ ·) best_chapters]
        else []

/-! ## Concrete scenario inputs from the spec's testable properties -/

/-- Scenario A of the spec: ten chapters, durations 1500 s except
chapters 2, 5 and 8 at 300 s, final chapter duration undefined. -/
def scenarioAChapters : List Chapter :=
  [⟨1, "", 0, some 1500⟩, ⟨2, "", 0, some 300⟩, ⟨3, "", 0, some 1500⟩,
   ⟨4, "", 0, some 1500⟩, ⟨5, "", 0, some 300⟩, ⟨6, "", 0, some 1500⟩,
   ⟨7, "", 0, some 1500⟩, ⟨8, "", 0, some 300⟩, ⟨9, "", 0, some 1500⟩,
   ⟨10, "", 0, none⟩]

/-- Scenario B of the spec: two samples with identical fingerprints. -/
def sampleB1 : Sample := ⟨1, "", 0, [1]⟩

def sampleB2 : Sample := ⟨2, "", 0, [1]⟩

/-- A bare sample carrying only a chapter number, for match lists fed
directly to the intro-sequence clusterer. -/
def qS (n : Nat) : Sample := ⟨n, "", 0, []⟩

/-- Scenario D of the spec: three high-quality matches among chapters
4, 7 and 11, plus one unrelated high-quality pair involving chapter 20. -/
def scenarioDMatches : List (Match ℚ) :=
  [⟨qS 4, qS 7, 9995/100⟩, ⟨qS 4, qS 11, 9993/100⟩,
   ⟨qS 7, qS 11, 9996/100⟩, ⟨qS 20, qS 21, 9999/100⟩]

/-- The confirmed subset of the candidate chapters: those with at least
min_group_size - 1 high-quality matches whose other endpoint is also a
candidate.  The candidate list is consulted only through membership, so
it is taken unsorted here; find_intro_sequences consults the ranked
list. -/
def confirmedChapters {α : Type} [LinearOrderedField α]
    (high_quality_matches : List (Match α)) (min_group_size : Nat) :
    List (Nat × Nat × α) :=
  (candidatesOf high_quality_matches min_group_size).filter (fun c =>
    decide (min_group_size - 1 ≤ matchesWithCandidates high_quality_matches
      (candidatesOf high_quality_matches min_group_size) c.1))

/-- The invariant of every stored duration group, relative to the
universe U of usable (number, duration) pairs: at least two members, and
a seed whose rounded duration is the key such that every member's
duration lies within the tolerance of the seed's duration. -/
def goodGroup (U : List (Nat × ℚ)) (tol : ℚ) (e : ℤ × List Nat) : Prop :=
  2 ≤ e.2.length ∧
  ∃ n ds, (n, ds) ∈ U ∧ n ∈ e.2 ∧ e.1 = pyRound ds ∧
    ∀ m ∈ e.2, ∃ dm, (m, dm) ∈ U ∧ ratAbs (dm - ds) ≤ tol

/-!
# Theorems

One main theorem per claim C1-C10, preceded by the helper lemmas the
proofs share.
-/

theorem ratAbs_eq_abs (q : ℚ) : ratAbs q = |q| := by
  unfold ratAbs
  split
  · exact (abs_of_neg (by assumption)).symm
  · exact (abs_of_nonneg (le_of_not_lt (by assumption))).symm

/-- Claim C1, counterexample: for the group [2, 3] (size 2) in a
container of 3 chapters, the outro-style proposed start list is [3],
which has 1 entry rather than 2 and does contain the last chapter index
3; the claim as stated fails. -/
theorem outroStarts_claim_counterexample :
    outroStarts [2, 3] 3 = [3] ∧
    ¬ ((outroStarts [2, 3] 3).length = 2 ∧ 3 ∉ outroStarts [2, 3] 3) := by
  decide

/-- Claim C1 (amended): outro-style interpretation of a group of size k
yields one proposed start c+1 per member c with c+1 ≤ T — hence exactly
k proposed starts whenever every member precedes the last chapter — and
every proposed start is at most T.  (The pre-post-processing list can
contain the last chapter index itself, namely when T-1 is a member; that
start is removed later by post-processing.) -/
theorem outroStarts_count_and_bound (grp : List Nat) (T : Nat)
    (h : ∀ c ∈ grp, c + 1 ≤ T) :
    (outroStarts grp T).length = grp.length ∧
    ∀ s ∈ outroStarts grp T, s ≤ T := by
  constructor
  · rw [outroStarts, List.length_map, List.filter_eq_self.mpr]
    intro a ha
    exact decide_eq_true (h a ha)
  · intro s hs
    rw [outroStarts, List.mem_map] at hs
    obtain ⟨c, hc, rfl⟩ := hs
    exact of_decide_eq_true (List.mem_filter.mp hc).2

/-- Witness for C1's amended theorem at the group [2, 5, 8] with 10
chapters. -/
theorem outroStarts_count_and_bound_witness :
    (∀ c ∈ [2, 5, 8], c + 1 ≤ 10) ∧
    ((outroStarts [2, 5, 8] 10).length = [2, 5, 8].length ∧
      ∀ s ∈ outroStarts [2, 5, 8] 10, s ≤ 10) :=
  ⟨by decide, outroStarts_count_and_bound [2, 5, 8] 10 (by decide)⟩

/-- Claim C9: degenerate inputs give empty results, not errors: fewer
than two samples give an empty match list, and an empty chapter list or
a chapter list without any defined duration gives no duration groups. -/
theorem degenerate_inputs_give_empty_results :
    (∀ (samples : List Sample) (θ : ℝ), samples.length < 2 →
      find_similar_samples samples θ = []) ∧
    (∀ t : ℚ, build_repeating_groups [] t = []) ∧
    (∀ (chapters : List Chapter) (t : ℚ),
      (∀ c ∈ chapters, c.duration = none) →
      build_repeating_groups chapters t = []) := by
  refine ⟨fun samples θ h => ?_, fun t => rfl, fun chapters t h => ?_⟩
  · rw [find_similar_samples, if_pos h]
  · have husable : usablePairs chapters = [] := by
      rw [usablePairs, List.filterMap_eq_nil_iff]
      intro c hc
      rw [h c hc]
      rfl
    rw [build_repeating_groups]
    simp only [husable]
    rfl

/-- The post-processing filter produces a strictly increasing list of
starts, all strictly below the last chapter number. -/
theorem filteredStarts_facts (l : List Nat) (m : Nat) :
    List.Sorted (· < ·) (filteredStarts l m) ∧ ∀ c ∈ filteredStarts l m, c < m := by
  have hperm := List.perm_insertionSort (· ≤ ·)
    (((l.dedup).filter (fun c => decide (c ≤ m))).filter (fun c => decide (c ≠ m)))
  have hnd : (((l.dedup).filter (fun c => decide (c ≤ m))).filter
      (fun c => decide (c ≠ m))).Nodup :=
    ((l.nodup_dedup).filter _).filter _
  have hsorted_le : List.Sorted (· ≤ ·) (filteredStarts l m) :=
    List.sorted_insertionSort _ _
  have hnd2 : (filteredStarts l m).Nodup := hperm.nodup_iff.mpr hnd
  refine ⟨hsorted_le.lt_of_le hnd2, fun c hc => ?_⟩
  have hc2 := hperm.mem_iff.mp hc
  have h1 : c ≤ m := of_decide_eq_true (List.mem_filter.mp (List.mem_filter.mp hc2).1).2
  have h2 : c ≠ m := of_decide_eq_true (List.mem_filter.mp hc2).2
  exact lt_of_le_of_ne h1 h2

/-- Claim C6: for every chapter list, expected episode count and user
decision function, the final episode-start list of the duration path is
deduplicated and sorted ascending (strictly increasing), contains no
index equal to the last chapter number, has at most E entries, and
chapter 1 is prepended exactly when the filtered list has exactly E-1
entries and its first entry is not near the start (first entry > 2). -/
theorem analyze_postprocessing :
    ∀ (chapters : List Chapter) (E : Nat)
      (choose : List (ℤ × GroupInfo) → Option Nat),
    List.Sorted (· < ·) (analyze_chapter_lengths chapters E choose).1 ∧
    (analyze_chapter_lengths chapters E choose).1.length ≤ E ∧
    (∀ c ∈ (analyze_chapter_lengths chapters E choose).1,
      c ≠ maxChapterNumber chapters) ∧
    ((filteredStarts
        (pick_group_by_episode_count (build_repeating_groups chapters 2) E
          chapters.length choose).1 (maxChapterNumber chapters)).length = E - 1 ∧
      2 < (filteredStarts
        (pick_group_by_episode_count (build_repeating_groups chapters 2) E
          chapters.length choose).1 (maxChapterNumber chapters)).headI →
      (analyze_chapter_lengths chapters E choose).1 =
        1 :: filteredStarts
          (pick_group_by_episode_count (build_repeating_groups chapters 2) E
            chapters.length choose).1 (maxChapterNumber chapters)) ∧
    (¬ ((filteredStarts
        (pick_group_by_episode_count (build_repeating_groups chapters 2) E
          chapters.length choose).1 (maxChapterNumber chapters)).length = E - 1 ∧
      2 < (filteredStarts
        (pick_group_by_episode_count (build_repeating_groups chapters 2) E
          chapters.length choose).1 (maxChapterNumber chapters)).headI) →
      (analyze_chapter_lengths chapters E choose).1 =
        (filteredStarts
          (pick_group_by_episode_count (build_repeating_groups chapters 2) E
            chapters.length choose).1 (maxChapterNumber chapters)).take E) := by
  intro chapters E choose
  obtain ⟨hs, hlt⟩ := filteredStarts_facts
    (pick_group_by_episode_count (build_repeating_groups chapters 2) E
      chapters.length choose).1 (maxChapterNumber chapters)
  simp only [analyze_chapter_lengths]
  set m := maxChapterNumber chapters with hm
  set fs := filteredStarts
    (pick_group_by_episode_count (build_repeating_groups chapters 2) E
      chapters.length choose).1 m with hfs
  clear_value fs
  clear hfs
  by_cases hcond : 2 < fs.headI ∧ fs.length = E - 1
  · rw [if_pos hcond]
    dsimp only
    have hne : fs ≠ [] := by
      intro h
      rw [h] at hcond
      exact absurd hcond.1 (by decide)
    have hE2 : 2 ≤ E := by
      rcases fs with _ | ⟨c, rest⟩
      · exact absurd rfl hne
      · have := hcond.2
        simp only [List.length_cons] at this
        omega
    have hlen : (1 :: fs).length = E := by
      simp only [List.length_cons, hcond.2]
      omega
    have hnotlt : ¬ (E < (1 :: fs).length) := by omega
    rw [if_neg hnotlt]
    dsimp only
    have hd : fs.headI ∈ fs := by
      rcases fs with _ | ⟨c, rest⟩
      · exact absurd rfl hne
      · exact List.mem_cons_self _ _
    have hm3 : 2 < m := lt_trans hcond.1 (hlt _ hd)
    refine ⟨?_, by omega, ?_, fun h => rfl, fun h => absurd ⟨hcond.2, hcond.1⟩ h⟩
    · refine List.sorted_cons.mpr ⟨fun b hb => ?_, hs⟩
      rcases fs with _ | ⟨c, rest⟩
      · exact absurd rfl hne
      · rcases List.mem_cons.mp hb with rfl | hb2
        · have := hcond.1
          simp only [List.headI] at this
          omega
        · have hcb : c < b := (List.sorted_cons.mp hs).1 b hb2
          have := hcond.1
          simp only [List.headI] at this
          omega
    · intro x hx
      rcases List.mem_cons.mp hx with rfl | hx2
      · omega
      · exact Nat.ne_of_lt (hlt x hx2)
  · rw [if_neg hcond]
    dsimp only
    by_cases hE : E < fs.length
    · rw [if_pos hE]
      dsimp only
      refine ⟨hs.sublist (List.take_sublist E fs), ?_, fun x hx => ?_,
        fun h => absurd ⟨h.2, h.1⟩ hcond, fun h => rfl⟩
      · simp only [List.length_take]
        omega
      · exact Nat.ne_of_lt (hlt x ((List.take_sublist E fs).subset hx))
    · rw [if_neg hE]
      dsimp only
      refine ⟨hs, by omega, fun x hx => Nat.ne_of_lt (hlt x hx),
        fun h => absurd ⟨h.2, h.1⟩ hcond,
        fun h => (List.take_of_length_le (by omega)).symm⟩

/-- Witness for C6 at scenario A with E = 3 and a quitting decision
function: the instantiated post-processing guarantees, with the
no-heuristic branch discharged concretely. -/
theorem analyze_postprocessing_witness :
    List.Sorted (· < ·) (analyze_chapter_lengths scenarioAChapters 3 (fun _ => none)).1 ∧
    (analyze_chapter_lengths scenarioAChapters 3 (fun _ => none)).1.length ≤ 3 ∧
    (analyze_chapter_lengths scenarioAChapters 3 (fun _ => none)).1 =
      (filteredStarts
        (pick_group_by_episode_count (build_repeating_groups scenarioAChapters 2) 3
          scenarioAChapters.length (fun _ => none)).1
        (maxChapterNumber scenarioAChapters)).take 3 := by
  obtain ⟨h1, h2, h3, h4, h5⟩ := analyze_postprocessing scenarioAChapters 3 (fun _ => none)
  exact ⟨h1, h2, h5 (by with_unfolding_all decide)⟩

/-- Claim C2: on scenario A (chapters 1..10, durations 300 s for
chapters 2, 5, 8, 1500 s for chapters 1, 3, 4, 6, 7, 9, final chapter
undefined; tolerance 2, expected episode count 3), the duration path
produces the two groups keyed 300 and 1500, exactly one of them ({2,5,8})
matches the expected count, it is auto-selected outro-style regardless of
any user decision function, and the final episode-start list is
[3, 6, 9]. -/
theorem scenarioA_duration_path :
    build_repeating_groups scenarioAChapters 2 =
      [(300, [2, 5, 8]), (1500, [1, 3, 4, 6, 7, 9])] ∧
    ((groupInfoList (build_repeating_groups scenarioAChapters 2)).filter
      (fun p => p.2.episodes_outro == 3 || p.2.episodes_intro == 3)).map
        (fun p => p.2.chapters) = [[2, 5, 8]] ∧
    (∀ choose,
      pick_group_by_episode_count (build_repeating_groups scenarioAChapters 2) 3 10 choose =
        (outroStarts [2, 5, 8] 10,
          "Outro-style match (N splits = N episodes) for duration 300s")) ∧
    outroStarts [2, 5, 8] 10 = [3, 6, 9] ∧
    (∀ choose, (analyze_chapter_lengths scenarioAChapters 3 choose).1 = [3, 6, 9]) := by
  refine ⟨by with_unfolding_all decide, by with_unfolding_all decide,
    fun choose => ?_, by decide, fun choose => ?_⟩
  · with_unfolding_all rfl
  · with_unfolding_all rfl

/-- Witness for C9 at an empty sample list, the empty chapter list, and
a one-chapter list whose only chapter has no duration. -/
theorem degenerate_inputs_give_empty_results_witness :
    find_similar_samples [] 0 = [] ∧
    build_repeating_groups [] 2 = [] ∧
    build_repeating_groups [⟨1, "", 0, none⟩] 2 = [] :=
  ⟨degenerate_inputs_give_empty_results.1 [] 0 (by decide),
   degenerate_inputs_give_empty_results.2.1 2,
   degenerate_inputs_give_empty_results.2.2 [⟨1, "", 0, none⟩] 2 (by decide)⟩

/-- A group contributes a best candidate exactly when one of its two
episode-count interpretations matches the expected count, with the
outro-style value preferred. -/
theorem bestCandidate_eq (E T : Nat) (p : ℤ × GroupInfo) :
    bestCandidate E T p =
      if p.2.episodes_outro == E || p.2.episodes_intro == E then
        some (if p.2.episodes_outro = E
          then (outroStarts p.2.chapters T,
            "Outro-style match (N splits = N episodes) for duration " ++ toString p.1 ++ "s")
          else (p.2.chapters,
            "Intro-style match (N splits = N-1 episodes) for duration " ++ toString p.1 ++ "s"))
      else none := by
  rw [bestCandidate]
  by_cases h1 : p.2.episodes_outro = E
  · simp [h1]
  · by_cases h2 : p.2.episodes_intro = E
    · simp [h1, h2]
    · simp [h1, h2]

/-- best_candidates is the matching groups in order, each replaced by
its preferred interpretation's value. -/
theorem filterMap_bestCandidate (E T : Nat) : ∀ gi : List (ℤ × GroupInfo),
    gi.filterMap (bestCandidate E T) =
      (gi.filter (fun p => p.2.episodes_outro == E || p.2.episodes_intro == E)).map
        (fun p => if p.2.episodes_outro = E
          then (outroStarts p.2.chapters T,
            "Outro-style match (N splits = N episodes) for duration " ++ toString p.1 ++ "s")
          else (p.2.chapters,
            "Intro-style match (N splits = N-1 episodes) for duration " ++ toString p.1 ++ "s")) := by
  intro gi
  induction gi with
  | nil => rfl
  | cons q tl ih =>
    rw [List.filterMap_cons, List.filter_cons, bestCandidate_eq]
    by_cases h : (q.2.episodes_outro == E || q.2.episodes_intro == E) = true
    · simp [h, ih]
    · simp [h, ih]

/-- Unfolding of pick_group_by_episode_count on a nonempty group
dict. -/
theorem pick_nonempty_unfold (groups : List (ℤ × List Nat)) (E T : Nat)
    (choose : List (ℤ × GroupInfo) → Option Nat) (hne : groups ≠ []) :
    pick_group_by_episode_count groups E T choose =
      if ((groupInfoList groups).filterMap (bestCandidate E T)).length = 1
      then ((groupInfoList groups).filterMap (bestCandidate E T)).headI
      else promptSelect (groupInfoList groups) E T choose := by
  rw [pick_group_by_episode_count, if_neg hne]

/-- Claim C7 (amended): for a nonempty set of duration groups, if
exactly one group's outro-style or intro-style episode count equals E,
that group is selected automatically - the result does not depend on the
user decision function, and is the outro-style start list when the
group's outro-style count matches, the group itself otherwise; if no
group or more than one group matches exactly, the outcome is the
interactive prompt resolution applied to the user's single choice.  With
no groups at all, an empty result is returned immediately without
consulting the user (the point on which the original claim fails). -/
theorem pick_exact_match_resolution :
    ∀ (groups : List (ℤ × List Nat)) (E T : Nat)
      (c1 c2 : List (ℤ × GroupInfo) → Option Nat),
    (groups ≠ [] →
      (((groupInfoList groups).filter
          (fun p => p.2.episodes_outro == E || p.2.episodes_intro == E)).length = 1 →
        ∀ p, (groupInfoList groups).filter
            (fun p => p.2.episodes_outro == E || p.2.episodes_intro == E) = [p] →
          pick_group_by_episode_count groups E T c1 =
            pick_group_by_episode_count groups E T c2 ∧
          (pick_group_by_episode_count groups E T c1).1 =
            (if p.2.episodes_outro = E then outroStarts p.2.chapters T
              else p.2.chapters)) ∧
      (((groupInfoList groups).filter
          (fun p => p.2.episodes_outro == E || p.2.episodes_intro == E)).length ≠ 1 →
        pick_group_by_episode_count groups E T c1 =
          promptSelect (groupInfoList groups) E T c1)) ∧
    (groups = [] →
      pick_group_by_episode_count groups E T c1 = ([], "No repeating groups found.")) := by
  intro groups E T c1 c2
  constructor
  · intro hne
    have hlen : ((groupInfoList groups).filterMap (bestCandidate E T)).length =
        ((groupInfoList groups).filter
          (fun p => p.2.episodes_outro == E || p.2.episodes_intro == E)).length := by
      rw [filterMap_bestCandidate, List.length_map]
    constructor
    · intro h1 p hp
      rw [pick_nonempty_unfold groups E T c1 hne, pick_nonempty_unfold groups E T c2 hne]
      have hbest : (groupInfoList groups).filterMap (bestCandidate E T) =
          [if p.2.episodes_outro = E
            then (outroStarts p.2.chapters T,
              "Outro-style match (N splits = N episodes) for duration " ++ toString p.1 ++ "s")
            else (p.2.chapters,
              "Intro-style match (N splits = N-1 episodes) for duration " ++ toString p.1 ++ "s")] := by
        rw [filterMap_bestCandidate, hp]
        rfl
      rw [hbest]
      refine ⟨rfl, ?_⟩
      simp only [List.length_singleton, if_pos, List.headI]
      by_cases hout : p.2.episodes_outro = E
      · rw [if_pos hout, if_pos hout]
      · rw [if_neg hout, if_neg hout]
    · intro hne1
      rw [pick_nonempty_unfold groups E T c1 hne]
      rw [if_neg (by rw [hlen]; exact hne1)]
  · intro he
    rw [pick_group_by_episode_count, if_pos he]

/-- Claim C7, counterexample: with an empty set of duration groups no
group matches the expected count, yet the selection is not deferred to
the user: the function returns the no-groups outcome, which differs from
the prompt resolution's outcome for the same (quitting) user. -/
theorem pick_empty_groups_counterexample :
    pick_group_by_episode_count [] 3 10 (fun _ => none) = ([], "No repeating groups found.") ∧
    promptSelect (groupInfoList []) 3 10 (fun _ => none) = ([], "User quit selection.") ∧
    pick_group_by_episode_count [] 3 10 (fun _ => none) ≠
      promptSelect (groupInfoList []) 3 10 (fun _ => none) := by
  refine ⟨rfl, rfl, ?_⟩
  decide

/-- Witness for C7's amended theorem: the single group [2, 5] with
E = 2 matches outro-style and is auto-selected for two different user
decision functions. -/
theorem pick_exact_match_resolution_witness :
    pick_group_by_episode_count [(300, [2, 5])] 2 10 (fun _ => none) =
      pick_group_by_episode_count [(300, [2, 5])] 2 10 (fun _ => some 0) ∧
    (pick_group_by_episode_count [(300, [2, 5])] 2 10 (fun _ => none)).1 =
      (if (mkGroupInfo [2, 5]).episodes_outro = 2
        then outroStarts (mkGroupInfo [2, 5]).chapters 10
        else (mkGroupInfo [2, 5]).chapters) :=
  ((pick_exact_match_resolution [(300, [2, 5])] 2 10 (fun _ => none) (fun _ => some 0)).1
    (by decide)).1 (by decide) (300, mkGroupInfo [2, 5]) (by decide)


/-- Claim C4: for every sample list with at least two elements and
every threshold, a reported Match has cosine distance strictly below the
threshold and carries similarity exactly (1 - distance) * 100, and every
unordered pair (in i < j order) whose distance is strictly below the
threshold is reported; in particular, two samples with identical
one-coordinate fingerprints at threshold 0.005 yield exactly one Match
with similarity 100. -/
theorem similarity_engine_match_iff :
    (∀ (samples : List Sample) (θ : ℝ), 2 ≤ samples.length →
      (∀ m ∈ find_similar_samples samples θ,
        cosineDist m.sample1.fingerprint m.sample2.fingerprint < θ ∧
        m.similarity = (1 - cosineDist m.sample1.fingerprint m.sample2.fingerprint) * 100) ∧
      (∀ p ∈ allPairs samples,
        cosineDist p.1.fingerprint p.2.fingerprint < θ →
        (⟨p.1, p.2, (1 - cosineDist p.1.fingerprint p.2.fingerprint) * 100⟩ : Match ℝ) ∈
          find_similar_samples samples θ)) ∧
    find_similar_samples [sampleB1, sampleB2] 0.005 = [⟨sampleB1, sampleB2, 100⟩] := by
  have hunfold : ∀ (samples : List Sample) (θ : ℝ), 2 ≤ samples.length →
      find_similar_samples samples θ = (allPairs samples).filterMap (fun p =>
        if cosineDist p.1.fingerprint p.2.fingerprint < θ then
          some ⟨p.1, p.2, (1 - cosineDist p.1.fingerprint p.2.fingerprint) * 100⟩
        else none) := by
    intro samples θ h
    rw [find_similar_samples, if_neg (by omega)]
  constructor
  · intro samples θ h
    rw [hunfold samples θ h]
    constructor
    · intro m hm
      obtain ⟨p, hp, hfp⟩ := List.mem_filterMap.mp hm
      by_cases hd : cosineDist p.1.fingerprint p.2.fingerprint < θ
      · rw [if_pos hd] at hfp
        cases hfp
        exact ⟨hd, rfl⟩
      · rw [if_neg hd] at hfp
        cases hfp
    · intro p hp hd
      exact List.mem_filterMap.mpr ⟨p, hp, by rw [if_pos hd]⟩
  · have hdot : dotList [1] [1] = 1 := by norm_num [dotList]
    have hdist : cosineDist [1] [1] = 0 := by
      rw [cosineDist, hdot]
      push_cast
      rw [Real.sqrt_one]
      norm_num
    rw [find_similar_samples, if_neg (by norm_num)]
    show List.filterMap _ [(sampleB1, sampleB2)] = _
    rw [List.filterMap_cons]
    have hfp1 : sampleB1.fingerprint = [1] := rfl
    have hfp2 : sampleB2.fingerprint = [1] := rfl
    simp only [hfp1, hfp2, hdist]
    rw [if_pos (by norm_num)]
    norm_num

/-- A produced Sample carries the chapter's own number. -/
theorem analyzeChapter_some_number (create_fingerprint : List ℚ → List ℚ)
    (y : List ℚ) (sr : Nat) (c : Chapter) (s : Sample)
    (h : analyzeChapter create_fingerprint y sr c = some s) :
    s.chapter_number = c.number := by
  rw [analyzeChapter] at h
  split at h
  · cases h
  · dsimp only at h
    split at h
    · cases h
    · cases h
      rfl

/-- Claim C8: a chapter produces a Sample iff its fixed-length segment
lies fully within the audio signal and the segment's RMS energy is not
below the 0.005 silence floor; the produced Sample carries the chapter's
data and the fingerprint of its segment; a chapter that fails either
test produces no Sample (an Option none, not an error) and no sample of
its chapter number reaches the subsequent matching stage. -/
theorem fingerprint_extraction_iff :
    ∀ (create_fingerprint : List ℚ → List ℚ) (y : List ℚ) (sr : Nat) (ch : Chapter),
    0 < sr → 0 ≤ ch.start_time →
    ((∃ s, analyzeChapter create_fingerprint y sr ch = some s) ↔
      (pyInt (ch.start_time * (sr : ℚ)) + (sr : ℤ) * 10 ≤ (y.length : ℤ) ∧
        ¬ rmsOf (chapterSegment y sr ch) < 0.005)) ∧
    (∀ s, analyzeChapter create_fingerprint y sr ch = some s →
      s = ⟨ch.number, ch.label, ch.start_time,
        create_fingerprint (chapterSegment y sr ch)⟩) ∧
    (∀ (chapters : List Chapter), ch ∈ chapters →
      (chapters.map (fun c => c.number)).Nodup →
      analyzeChapter create_fingerprint y sr ch = none →
      ch.number ∉ (analyze_chapters create_fingerprint y chapters sr).map
        (fun s => s.chapter_number)) := by
  intro fp y sr ch hsr hst
  refine ⟨?_, ?_, ?_⟩
  · rw [analyzeChapter]
    split
    · constructor
      · rintro ⟨s, hs⟩
        cases hs
      · rintro ⟨h1, h2⟩
        omega
    · rename_i hle
      dsimp only
      split
      · rename_i hrms
        constructor
        · rintro ⟨s, hs⟩
          cases hs
        · rintro ⟨h1, h2⟩
          exact absurd hrms h2
      · rename_i hrms
        constructor
        · intro _
          exact ⟨by omega, hrms⟩
        · intro _
          exact ⟨_, rfl⟩
  · intro s hs
    rw [analyzeChapter] at hs
    split at hs
    · cases hs
    · dsimp only at hs
      split at hs
      · cases hs
      · cases hs
        rfl
  · intro chapters hmem hnd hnone hin
    obtain ⟨s, hsmem, hsnum⟩ := List.mem_map.mp hin
    obtain ⟨ch2, hch2, hch2some⟩ := List.mem_filterMap.mp hsmem
    have : s.chapter_number = ch2.number := analyzeChapter_some_number fp y sr ch2 s hch2some
    have heq : ch2 = ch := List.inj_on_of_nodup_map hnd hch2 hmem (by omega)
    rw [heq] at hch2some
    rw [hch2some] at hnone
    cases hnone

/-- Witness for C4 at the two-sample scenario list. -/
theorem similarity_engine_match_iff_witness :
    (∀ m ∈ find_similar_samples [sampleB1, sampleB2] 0.005,
      cosineDist m.sample1.fingerprint m.sample2.fingerprint < 0.005 ∧
      m.similarity = (1 - cosineDist m.sample1.fingerprint m.sample2.fingerprint) * 100) ∧
    (∀ p ∈ allPairs [sampleB1, sampleB2],
      cosineDist p.1.fingerprint p.2.fingerprint < 0.005 →
      (⟨p.1, p.2, (1 - cosineDist p.1.fingerprint p.2.fingerprint) * 100⟩ : Match ℝ) ∈
        find_similar_samples [sampleB1, sampleB2] 0.005) :=
  similarity_engine_match_iff.1 [sampleB1, sampleB2] 0.005 (by decide)

/-- Witness for C8: a 10-sample signal of constant amplitude 1 at
sample rate 1 with a chapter starting at time 0. -/
theorem fingerprint_extraction_iff_witness :
    ((∃ s, analyzeChapter (fun _ => []) (List.replicate 10 1) 1 ⟨1, "", 0, none⟩ = some s) ↔
      (pyInt ((0 : ℚ) * ((1 : Nat) : ℚ)) + ((1 : Nat) : ℤ) * 10 ≤
          (((List.replicate 10 (1 : ℚ)).length : Nat) : ℤ) ∧
        ¬ rmsOf (chapterSegment (List.replicate 10 1) 1 ⟨1, "", 0, none⟩) < 0.005)) ∧
    (∀ s, analyzeChapter (fun _ => []) (List.replicate 10 1) 1 ⟨1, "", 0, none⟩ = some s →
      s = ⟨1, "", 0, (fun _ => ([] : List ℚ))
        (chapterSegment (List.replicate 10 1) 1 ⟨1, "", 0, none⟩)⟩) ∧
    (∀ (chapters : List Chapter), (⟨1, "", 0, none⟩ : Chapter) ∈ chapters →
      (chapters.map (fun c => c.number)).Nodup →
      analyzeChapter (fun _ => []) (List.replicate 10 1) 1 ⟨1, "", 0, none⟩ = none →
      1 ∉ (analyze_chapters (fun _ => []) (List.replicate 10 1) chapters 1).map
        (fun s => s.chapter_number)) :=
  fingerprint_extraction_iff (fun _ => []) (List.replicate 10 1) 1 ⟨1, "", 0, none⟩
    (by decide) (by decide)

theorem ratAbs_nonneg (q : ℚ) : 0 ≤ ratAbs q := by
  unfold ratAbs
  split
  · linarith [show q < 0 by assumption]
  · exact le_of_not_lt (by assumption)

theorem ratAbs_zero : ratAbs 0 = 0 := rfl

/-- The inner sweep loop only appends chapters that were not yet used,
appear after the seed, and lie within the tolerance of the seed's
duration. -/
theorem collectGroup_spec (ds tol : ℚ) : ∀ (l : List (Nat × ℚ)) (used acc : List Nat),
    ∃ ext, (collectGroup ds tol l used acc).1 = acc ++ ext ∧
      ∀ m ∈ ext, m ∉ used ∧ ∃ d, (m, d) ∈ l ∧ ratAbs (d - ds) ≤ tol := by
  intro l
  induction l with
  | nil =>
    intro used acc
    exact ⟨[], by simp [collectGroup], by simp⟩
  | cons hd rest ih =>
    intro used acc
    obtain ⟨n, d⟩ := hd
    simp only [collectGroup]
    by_cases h1 : n ∈ used
    · rw [if_pos h1]
      obtain ⟨ext, heq, hp⟩ := ih used acc
      refine ⟨ext, heq, fun m hm => ⟨(hp m hm).1, ?_⟩⟩
      obtain ⟨d', hd', hc'⟩ := (hp m hm).2
      exact ⟨d', List.mem_cons_of_mem _ hd', hc'⟩
    · rw [if_neg h1]
      by_cases h2 : ratAbs (d - ds) ≤ tol
      · rw [if_pos h2]
        obtain ⟨ext, heq, hp⟩ := ih (n :: used) (acc ++ [n])
        refine ⟨n :: ext, ?_, ?_⟩
        · rw [heq, List.append_assoc]
          rfl
        · intro m hm
          rcases List.mem_cons.mp hm with rfl | hm2
          · exact ⟨h1, d, List.mem_cons_self _ _, h2⟩
          · obtain ⟨hnotin, d', hd', hc'⟩ := hp m hm2
            exact ⟨fun hmu => hnotin (List.mem_cons_of_mem _ hmu),
              d', List.mem_cons_of_mem _ hd', hc'⟩
      · rw [if_neg h2]
        obtain ⟨ext, heq, hp⟩ := ih used acc
        refine ⟨ext, heq, fun m hm => ⟨(hp m hm).1, ?_⟩⟩
        obtain ⟨d', hd', hc'⟩ := (hp m hm).2
        exact ⟨d', List.mem_cons_of_mem _ hd', hc'⟩

/-- An entry of an updated dict is an old entry or the new binding. -/
theorem dictInsert_mem {gs : List (ℤ × List Nat)} {k : ℤ} {v : List Nat}
    {e : ℤ × List Nat} (h : e ∈ dictInsert gs k v) : e ∈ gs ∨ e = (k, v) := by
  rw [dictInsert] at h
  split at h
  · obtain ⟨p, hp, hfp⟩ := List.mem_map.mp h
    by_cases hk : (p.1 == k) = true
    · rw [if_pos hk] at hfp
      exact Or.inr hfp.symm
    · rw [if_neg hk] at hfp
      exact Or.inl (hfp ▸ hp)
  · rcases List.mem_append.mp h with h2 | h2
    · exact Or.inl h2
    · rcases List.mem_cons.mp h2 with rfl | h3
      · exact Or.inr rfl
      · cases h3

/-- Every group stored by the duration sweep satisfies the group
invariant. -/
theorem sweepGroups_invariant (tol : ℚ) (U : List (Nat × ℚ)) :
    ∀ (l : List (Nat × ℚ)) (used : List Nat) (groups : List (ℤ × List Nat)),
    (∀ p ∈ l, p ∈ U) → (∀ e ∈ groups, goodGroup U tol e) →
    ∀ e ∈ sweepGroups tol l used groups, goodGroup U tol e := by
  intro l
  induction l with
  | nil =>
    intro used groups hl hacc e he
    simp only [sweepGroups] at he
    exact hacc e he
  | cons hd rest ih =>
    intro used groups hl hacc e he
    obtain ⟨n, d⟩ := hd
    simp only [sweepGroups] at he
    by_cases h1 : n ∈ used
    · rw [if_pos h1] at he
      exact ih used groups (fun p hp => hl p (List.mem_cons_of_mem _ hp)) hacc e he
    · rw [if_neg h1] at he
      obtain ⟨ext, heq, hp⟩ := collectGroup_spec d tol rest (n :: used) [n]
      by_cases h2 : 2 ≤ (collectGroup d tol rest (n :: used) [n]).1.length
      · rw [if_pos h2] at he
        refine ih _ _ (fun p hp2 => hl p (List.mem_cons_of_mem _ hp2)) ?_ e he
        intro e2 he2
        rcases dictInsert_mem he2 with h3 | h3
        · exact hacc e2 h3
        · subst h3
          have hperm := List.perm_insertionSort (α := Nat) (· ≤ ·)
            (collectGroup d tol rest (n :: used) [n]).1
          have hext : ext ≠ [] := by
            intro hx
            rw [hx, List.append_nil] at heq
            rw [heq] at h2
            simp at h2
          obtain ⟨m0, hm0⟩ := List.exists_mem_of_ne_nil ext hext
          obtain ⟨hm0ni, d0, hd0, hc0⟩ := hp m0 hm0
          have htol : 0 ≤ tol := le_trans (ratAbs_nonneg _) hc0
          refine ⟨?_, n, d, hl (n, d) (List.mem_cons_self _ _), ?_, rfl, ?_⟩
          · rw [hperm.length_eq]
            exact h2
          · rw [hperm.mem_iff, heq]
            exact List.mem_append_left _ (List.mem_singleton_self n)
          · intro m hm
            rw [hperm.mem_iff, heq] at hm
            rcases List.mem_append.mp hm with hm2 | hm2
            · rcases List.mem_singleton.mp hm2 with rfl
              refine ⟨d, hl (m, d) (List.mem_cons_self _ _), ?_⟩
              rw [sub_self]
              rw [ratAbs_zero]
              exact htol
            · obtain ⟨_, d', hd', hc'⟩ := hp m hm2
              exact ⟨d', hl (m, d') (List.mem_cons_of_mem _ hd'), hc'⟩
      · rw [if_neg h2] at he
        exact ih _ _ (fun p hp2 => hl p (List.mem_cons_of_mem _ hp2)) hacc e he

/-- Membership in the usable (number, duration) projection. -/
theorem mem_usablePairs {chapters : List Chapter} {n : Nat} {d : ℚ} :
    (n, d) ∈ usablePairs chapters ↔
      ∃ c ∈ chapters, c.number = n ∧ c.duration = some d := by
  rw [usablePairs]
  constructor
  · intro h
    obtain ⟨c, hc, hfc⟩ := List.mem_filterMap.mp h
    cases hdur : c.duration with
    | none =>
      rw [hdur] at hfc
      cases hfc
    | some d' =>
      rw [hdur] at hfc
      simp only [Option.map_some'] at hfc
      cases hfc
      exact ⟨c, hc, rfl, hdur⟩
  · rintro ⟨c, hc, rfl, hdur⟩
    refine List.mem_filterMap.mpr ⟨c, hc, ?_⟩
    rw [hdur]
    rfl

/-- Claim C5: for every chapter list (with the data model's distinct
chapter numbers) and tolerance, every group returned by the duration
tolerance clusterer has at least two members, is keyed by the rounded
duration of a seed member, every member chapter's duration differs from
the seed's duration by at most the tolerance, and no chapter with an
undefined duration (the final chapter) ever appears in a group. -/
theorem duration_groups_invariants :
    ∀ (chapters : List Chapter) (tol : ℚ),
    (chapters.map (fun c => c.number)).Nodup →
    ∀ k grp, (k, grp) ∈ build_repeating_groups chapters tol →
    2 ≤ grp.length ∧
    (∃ c ∈ chapters, ∃ ds, c.duration = some ds ∧ c.number ∈ grp ∧ k = pyRound ds ∧
      ∀ m ∈ grp, ∃ c2 ∈ chapters, c2.number = m ∧ ∃ dm, c2.duration = some dm ∧
        |dm - ds| ≤ tol) ∧
    (∀ m ∈ grp, ∀ c ∈ chapters, c.number = m → c.duration ≠ none) := by
  intro chapters tol hnd k grp hmem
  rw [build_repeating_groups] at hmem
  by_cases husable : usablePairs chapters = []
  · rw [if_pos husable] at hmem
    cases hmem
  · rw [if_neg husable] at hmem
    have hgg := sweepGroups_invariant tol (usablePairs chapters)
      (List.insertionSort durLE (usablePairs chapters)) [] []
      (fun p hp => (List.perm_insertionSort durLE _).mem_iff.mp hp)
      (fun e he => absurd he (List.not_mem_nil e)) (k, grp) hmem
    obtain ⟨hlen, n, ds, hU, hn, hk, hmembers⟩ := hgg
    obtain ⟨c, hc, hcn, hcd⟩ := mem_usablePairs.mp hU
    have hmem2 : ∀ m ∈ grp, ∃ c2 ∈ chapters, c2.number = m ∧ ∃ dm,
        c2.duration = some dm ∧ |dm - ds| ≤ tol := by
      intro m hm
      obtain ⟨dm, hUm, hcm⟩ := hmembers m hm
      obtain ⟨c2, hc2, hc2n, hc2d⟩ := mem_usablePairs.mp hUm
      rw [ratAbs_eq_abs] at hcm
      exact ⟨c2, hc2, hc2n, dm, hc2d, hcm⟩
    refine ⟨hlen, ⟨c, hc, ds, hcd, by rw [hcn]; exact hn, hk, hmem2⟩, ?_⟩
    intro m hm c3 hc3 hc3n hc3d
    obtain ⟨c2, hc2, hc2n, dm, hc2d, _⟩ := hmem2 m hm
    have : c2 = c3 := List.inj_on_of_nodup_map hnd hc2 hc3 (by rw [hc2n, hc3n])
    rw [this, hc3d] at hc2d
    cases hc2d

/-- Witness for C5 at a two-chapter list with durations 100 and 101
within tolerance 2. -/
theorem duration_groups_invariants_witness :
    (([⟨1, "", 0, some 100⟩, ⟨2, "", 0, some 101⟩] : List Chapter).map
      (fun c => c.number)).Nodup ∧
    (∀ k grp, (k, grp) ∈ build_repeating_groups
        [⟨1, "", 0, some 100⟩, ⟨2, "", 0, some 101⟩] 2 →
      2 ≤ grp.length ∧
      (∃ c ∈ ([⟨1, "", 0, some 100⟩, ⟨2, "", 0, some 101⟩] : List Chapter),
        ∃ ds, c.duration = some ds ∧ c.number ∈ grp ∧ k = pyRound ds ∧
        ∀ m ∈ grp, ∃ c2 ∈ ([⟨1, "", 0, some 100⟩, ⟨2, "", 0, some 101⟩] : List Chapter),
          c2.number = m ∧ ∃ dm, c2.duration = some dm ∧ |dm - ds| ≤ 2) ∧
      (∀ m ∈ grp, ∀ c ∈ ([⟨1, "", 0, some 100⟩, ⟨2, "", 0, some 101⟩] : List Chapter),
        c.number = m → c.duration ≠ none)) :=
  ⟨by decide, duration_groups_invariants
    [⟨1, "", 0, some 100⟩, ⟨2, "", 0, some 101⟩] 2 (by decide)⟩


/-- List.any is invariant under permutation of the list. -/
theorem any_eq_of_perm {α : Type} {l₁ l₂ : List α} (h : List.Perm l₁ l₂) (f : α → Bool) :
    l₁.any f = l₂.any f := by
  cases hb : l₂.any f
  · rw [List.any_eq_false] at hb ⊢
    intro x hx
    exact hb x (h.mem_iff.mp hx)
  · rw [List.any_eq_true] at hb ⊢
    obtain ⟨x, hx, hfx⟩ := hb
    exact ⟨x, h.mem_iff.mpr hx, hfx⟩

/-- The per-chapter confirmation count only consults the candidate
list through membership, so it is invariant under its permutation. -/
theorem matchesWithCandidates_perm {α : Type} (hq : List (Match α))
    {c₁ c₂ : List (Nat × Nat × α)} (h : List.Perm c₁ c₂) (ch : Nat) :
    matchesWithCandidates hq c₁ ch = matchesWithCandidates hq c₂ ch := by
  unfold matchesWithCandidates
  apply List.countP_congr
  intro m hm
  rw [any_eq_of_perm h (fun c => m.sample2.chapter_number == c.1),
    any_eq_of_perm h (fun c => m.sample1.chapter_number == c.1)]

/-- The candidate ranking sort of find_intro_sequences has no effect
on the returned group. -/
theorem find_intro_sort_irrelevant {α : Type} [LinearOrderedField α]
    (ml : List (Match α)) (g : Nat) (σ : α) :
    find_intro_sequences ml g σ = find_intro_sequences_unranked ml g σ := by
  rw [find_intro_sequences, find_intro_sequences_unranked]
  by_cases hml : ml = []
  · rw [if_pos hml, if_pos hml]
  · rw [if_neg hml, if_neg hml]
    by_cases hhq : ml.filter (fun m => decide (σ ≤ m.similarity)) = []
    · rw [if_pos hhq, if_pos hhq]
    · rw [if_neg hhq, if_neg hhq]
      set hq := ml.filter (fun m => decide (σ ≤ m.similarity)) with hhqdef
      set cands := candidatesOf hq g with hcandsdef
      have hperm : List.Perm (List.insertionSort candLE cands) cands :=
        List.perm_insertionSort candLE cands
      by_cases hc : cands = []
      · rw [hc]
        rw [show List.insertionSort candLE ([] : List (Nat × Nat × α)) = [] from rfl]
      · have hsne : List.insertionSort candLE cands ≠ [] := by
          intro hz
          rw [hz] at hperm
          exact hc hperm.nil_eq.symm
        rw [if_neg hsne, if_neg hc]
        have hpred : ∀ c ∈ List.insertionSort candLE cands,
            (decide (g - 1 ≤ matchesWithCandidates hq (List.insertionSort candLE cands) c.1) : Bool) =
            decide (g - 1 ≤ matchesWithCandidates hq cands c.1) := by
          intro c hcm
          rw [matchesWithCandidates_perm hq hperm c.1]
        have hfilt : List.Perm ((List.insertionSort candLE cands).filter
            (fun c => decide (g - 1 ≤ matchesWithCandidates hq (List.insertionSort candLE cands) c.1)))
            (cands.filter (fun c => decide (g - 1 ≤ matchesWithCandidates hq cands c.1))) := by
          rw [List.filter_congr hpred]
          exact hperm.filter _
        have hmap := hfilt.map (fun c : Nat × Nat × α => c.1)
        have hlen := hmap.length_eq
        have hsorteq : List.insertionSort (· ≤ ·)
            (((List.insertionSort candLE cands).filter
              (fun c => decide (g - 1 ≤ matchesWithCandidates hq (List.insertionSort candLE cands) c.1))).map
              (fun c => c.1)) =
            List.insertionSort (· ≤ ·)
              ((cands.filter (fun c => decide (g - 1 ≤ matchesWithCandidates hq cands c.1))).map
              (fun c => c.1)) := by
          refine List.eq_of_perm_of_sorted ?_ (List.sorted_insertionSort _ _)
            (List.sorted_insertionSort _ _)
          exact (List.perm_insertionSort _ _).trans (hmap.trans (List.perm_insertionSort _ _).symm)
        dsimp only
        rw [hlen, hsorteq]

/-- Claim C10: the output of the intro-sequence clusterer is invariant
under the ordering of the candidate list: the embedding that omits the
descending (match count, mean similarity) sort is extensionally equal to
the original, because each chapter's confirmation check consults only
the complete candidate set and the high-quality match list. -/
theorem intro_clusterer_rank_invariance :
    ∀ (α : Type) [LinearOrderedField α] (ml : List (Match α)) (g : Nat) (σ : α),
    find_intro_sequences_unranked ml g σ = find_intro_sequences ml g σ := by
  intro α _ ml g σ
  exact (find_intro_sort_irrelevant ml g σ).symm

/-- Claim C3 (amended, requiring a positive minimum group size): after
keeping matches with similarity at or above the floor and taking as
candidates the chapters with at least g-1 such matches, a candidate is
confirmed iff it has at least g-1 high-quality matches whose other
endpoint is also a candidate, and the clusterer returns exactly the
confirmed set, sorted ascending, as a single group iff its size is at
least g, and otherwise no group.  In particular scenario D returns the
single group [4, 7, 11] and chapter 20 is excluded. -/
theorem intro_clusterer_confirmation :
    (∀ (α : Type) [LinearOrderedField α] (ml : List (Match α)) (g : Nat) (σ : α),
      1 ≤ g →
      find_intro_sequences ml g σ =
        if g ≤ (confirmedChapters (ml.filter (fun m => decide (σ ≤ m.similarity))) g).length
        then [List.insertionSort (· ≤ ·)
          ((confirmedChapters (ml.filter (fun m => decide (σ ≤ m.similarity))) g).map
            (fun c => c.1))]
        else []) ∧
    find_intro_sequences scenarioDMatches 3 (999/10 : ℚ) = [[4, 7, 11]] ∧
    (∀ grp ∈ find_intro_sequences scenarioDMatches 3 (999/10 : ℚ), 20 ∉ grp) := by
  refine ⟨?_, by with_unfolding_all decide, by with_unfolding_all decide⟩
  intro α _ ml g σ hg
  rw [find_intro_sort_irrelevant, find_intro_sequences_unranked, confirmedChapters]
  by_cases hml : ml = []
  · rw [if_pos hml]
    subst hml
    rw [show (([] : List (Match α)).filter (fun m => decide (σ ≤ m.similarity))) = [] from rfl]
    rw [show candidatesOf ([] : List (Match α)) g = [] from rfl]
    rw [show (([] : List (Nat × Nat × α)).filter _) = [] from List.filter_nil _]
    rw [if_neg (by simp only [List.length_nil]; omega)]
  · rw [if_neg hml]
    by_cases hhq : ml.filter (fun m => decide (σ ≤ m.similarity)) = []
    · rw [if_pos hhq, hhq]
      rw [show candidatesOf ([] : List (Match α)) g = [] from rfl]
      rw [show (([] : List (Nat × Nat × α)).filter _) = [] from List.filter_nil _]
      rw [if_neg (by simp only [List.length_nil]; omega)]
    · rw [if_neg hhq]
      by_cases hc : candidatesOf (ml.filter (fun m => decide (σ ≤ m.similarity))) g = []
      · rw [if_pos hc, hc]
        rw [show (([] : List (Nat × Nat × α)).filter _) = [] from List.filter_nil _]
        rw [if_neg (by simp only [List.length_nil]; omega)]
      · rw [if_neg hc]
        dsimp only
        rw [List.length_map]


/-- Claim C3, counterexample: with minimum group size 0 and an empty
match list the confirmed set is empty and has size at least 0, so the
claimed rule demands the empty group be returned as a single
ChapterGroup, but the clusterer's empty-input early return produces no
group at all. -/
theorem intro_clusterer_zero_size_counterexample :
    find_intro_sequences ([] : List (Match ℚ)) 0 0 = [] ∧
    (if (0 : Nat) ≤ (confirmedChapters (([] : List (Match ℚ)).filter
        (fun m => decide ((0 : ℚ) ≤ m.similarity))) 0).length
      then [List.insertionSort (· ≤ ·)
        ((confirmedChapters (([] : List (Match ℚ)).filter
          (fun m => decide ((0 : ℚ) ≤ m.similarity))) 0).map (fun c => c.1))]
      else []) = [[]] ∧
    find_intro_sequences ([] : List (Match ℚ)) 0 0 ≠ [[]] := by
  refine ⟨rfl, ?_, by decide⟩
  with_unfolding_all decide

/-- Witness for C3's amended theorem at scenario D with g = 3. -/
theorem intro_clusterer_confirmation_witness :
    find_intro_sequences scenarioDMatches 3 (999/10 : ℚ) =
      if 3 ≤ (confirmedChapters (scenarioDMatches.filter
          (fun m => decide ((999/10 : ℚ) ≤ m.similarity))) 3).length
      then [List.insertionSort (· ≤ ·)
        ((confirmedChapters (scenarioDMatches.filter
          (fun m => decide ((999/10 : ℚ) ≤ m.similarity))) 3).map (fun c => c.1))]
      else [] :=
  intro_clusterer_confirmation.1 ℚ scenarioDMatches 3 (999/10) (by decide)

end DESH
